import Mathlib

/-!
Verification of the oceans_subnet validator reward pipeline.

The Python sources are shallowly embedded: floats become rationals,
Python dicts become insertion-ordered association lists, database tables
become lists of natural keys, and fallible calls become Option/Except
values.  Each definition mirrors one function of the repository.
-/

namespace Oceans

/-! ## Association-list dictionaries (Python dict semantics) -/

/-- Dictionary as an insertion-ordered association list, mirroring a
Python dict: first occurrence of a key is the binding. -/
abbrev Dict (K V : Type) := List (K × V)

/-- Value stored under a key, if present (first binding wins). -/
def dictGet {K V : Type} [DecidableEq K] (d : Dict K V) (k : K) : Option V :=
  match d with
  | [] => none
  | (a, b) :: rest => if a = k then some b else dictGet rest k

/-- Value stored under a key, defaulting to 0 (defaultdict read). -/
def dictGetD {K : Type} [DecidableEq K] (d : Dict K ℚ) (k : K) : ℚ :=
  (dictGet d k).getD 0

/-- Assignment d[k] = v of a Python dict: replace the first binding in
place, else append at the end. -/
def dictSet {K V : Type} [DecidableEq K] (d : Dict K V) (k : K) (v : V) : Dict K V :=
  match d with
  | [] => [(k, v)]
  | (a, b) :: rest => if a = k then (a, v) :: rest else (a, b) :: dictSet rest k v

/-- Accumulation d[k] += v of a Python defaultdict(float). -/
def dictAdd {K : Type} [DecidableEq K] (d : Dict K ℚ) (k : K) (v : ℚ) : Dict K ℚ :=
  match d with
  | [] => [(k, v)]
  | (a, b) :: rest => if a = k then (a, b + v) :: rest else (a, b) :: dictAdd rest k v

/-- Sum of the values of a dict, as in sum(d.values()). -/
def dictSum {K : Type} (d : Dict K ℚ) : ℚ :=
  (d.map Prod.snd).sum

/-- Dict comprehension mapping each value, preserving key order. -/
def dictMapVal {K : Type} (f : ℚ → ℚ) (d : Dict K ℚ) : Dict K ℚ :=
  d.map (fun p => (p.1, f p.2))

/-! Basic lemmas about the dictionary operations. -/

theorem dictGet_dictAdd {K : Type} [DecidableEq K] (d : Dict K ℚ) (k k2 : K) (v : ℚ) :
    dictGet (dictAdd d k v) k2 =
      if k = k2 then some (dictGetD d k + v) else dictGet d k2 := by
  induction d with
  | nil =>
      by_cases h : k = k2 <;> simp [dictAdd, dictGet, dictGetD, h]
  | cons p rest ih =>
      obtain ⟨a, b⟩ := p
      by_cases hak : a = k <;> by_cases h2 : a = k2 <;> by_cases h3 : k = k2 <;>
        simp_all [dictAdd, dictGet, dictGetD]

theorem dictGetD_dictAdd {K : Type} [DecidableEq K] (d : Dict K ℚ) (k k2 : K) (v : ℚ) :
    dictGetD (dictAdd d k v) k2 =
      dictGetD d k2 + (if k = k2 then v else 0) := by
  by_cases h : k = k2
  · subst h
    simp [dictGetD, dictGet_dictAdd]
  · simp [dictGetD, dictGet_dictAdd, h]

theorem dictGet_dictSet {K V : Type} [DecidableEq K] (d : Dict K V) (k k2 : K) (v : V) :
    dictGet (dictSet d k v) k2 = if k = k2 then some v else dictGet d k2 := by
  induction d with
  | nil =>
      by_cases h : k = k2 <;> simp [dictSet, dictGet, h]
  | cons p rest ih =>
      obtain ⟨a, b⟩ := p
      by_cases hak : a = k <;> by_cases h2 : a = k2 <;> by_cases h3 : k = k2 <;>
        simp_all [dictSet, dictGet]

theorem dictGet_dictMapVal {K : Type} [DecidableEq K] (f : ℚ → ℚ) (d : Dict K ℚ) (k : K) :
    dictGet (dictMapVal f d) k = (dictGet d k).map f := by
  induction d with
  | nil => simp [dictMapVal, dictGet]
  | cons p rest ih =>
      obtain ⟨a, b⟩ := p
      by_cases h : a = k
      · simp [dictMapVal, dictGet, h]
      · simpa [dictMapVal, dictGet, h] using ih

theorem dictSum_dictMapVal_mul {K : Type} (d : Dict K ℚ) (c : ℚ) :
    dictSum (dictMapVal (fun r => r * c) d) = dictSum d * c := by
  induction d with
  | nil => simp [dictMapVal, dictSum]
  | cons p rest ih =>
      simp [dictMapVal, dictSum] at ih ⊢
      rw [ih]
      ring

/-! ## api/schemas.py and api/client.py -/

/-- Embedding of the pydantic Vote model of api/schemas.py (the optional
timestamp is irrelevant to the pipeline and omitted).  Floats are
modelled as rationals. -/
structure Vote where
  voter_hotkey : String
  block_height : ℤ
  voter_stake : ℚ
  weights : Dict ℤ ℚ
deriving DecidableEq, Repr

/-- Hard-coded temporal voter hotkeys of api/client.py. -/
def TEMPORAL_VOTER_HOTKEYS : List String :=
  ["5HdK1zyMbMoq1NM2sDL2Len9h2CsmBcVbrFthePccMN5R8jU",
   "5CdG8JDyzBPvXD1PM3ctdVmk3DbC52aTmYbQNezasVUXsn66",
   "5CsvRJXuR955WojnGMdok1hbhffZyB4N5ocrv82f3p5A2zVp",
   "5ExiuLNctkEUL5xMijujmAdhJGdzb5d6vxdzLdjpH3MLNovF"]

/-- Deterministic block height of the temporal votes in api/client.py. -/
def TEMPORAL_BLOCK_HEIGHT : ℤ := 6073385

/-- Stake of every temporal voter in api/client.py. -/
def TEMPORAL_STAKE : ℚ := 1

/-- Inactive or unknown subnets listed in api/client.py (kept there for
reference, currently unused by the client). -/
def INACTIVE_SUBNETS : List ℤ :=
  [15, 46, 67, 69, 74, 78, 82, 83, 95, 100,
   101, 104, 110, 112, 115, 116, 117, 118, 119, 120]

/-- Subnets with user-supplied liquidity, from api/client.py. -/
def ENABLED_USER_LIQUIDITY : List ℤ :=
  [10, 27, 36, 51, 73, 85, 87, 97, 102, 104, 106]

/-- Active subnets of api/client.py: sorted(ENABLED_USER_LIQUIDITY). -/
def ACTIVE_SUBNETS : List ℤ :=
  ENABLED_USER_LIQUIDITY.insertionSort (· ≤ ·)

/-- Equal weight share across the active subnets, from api/client.py.
The program computes 1 / len(ACTIVE_SUBNETS) in IEEE-754 double
precision; this is the exact rational value of the resulting double
0.09090909090909091 (= 3275345183542179 · 2^-55), not the ideal 1/11. -/
def SUBNET_WEIGHT : ℚ := 3275345183542179 / 36028797018963968

/-- Weights dict of every temporal vote, from api/client.py. -/
def TEMPORAL_WEIGHTS : Dict ℤ ℚ :=
  ACTIVE_SUBNETS.map (fun i => (i, SUBNET_WEIGHT))

/-- Offline sentinel of api/client.py. -/
def OFFLINE_SENTINEL : String := "TODO"

/-- Python str.rstrip with the single character slash: drop every
trailing slash. -/
def rstripSlash (s : String) : String :=
  String.mk ((s.toList.reverse.dropWhile (fun c => c = '/')).reverse)

/-- Python str.upper on the character list of a string (the configured
endpoints are ASCII). -/
def pyUpper (s : String) : String :=
  String.mk (s.toList.map Char.toUpper)

/-- Offline-mode detection of VoteAPIClient.__init__: the base URL with
trailing slashes removed, upper-cased, equals the sentinel. -/
def isOffline (base_url : String) : Bool :=
  pyUpper (rstripSlash base_url) = OFFLINE_SENTINEL

/-- Embedding of VoteAPIClient._generate_temporal_votes. -/
def generateTemporalVotes : List Vote :=
  TEMPORAL_VOTER_HOTKEYS.map (fun hk =>
    { voter_hotkey := hk
      block_height := TEMPORAL_BLOCK_HEIGHT
      voter_stake := TEMPORAL_STAKE
      weights := TEMPORAL_WEIGHTS })

/-- Embedding of VoteAPIClient.get_latest_votes.  The online transport
is abstracted as the networkResponse argument; the offline branch never
consults it (the code issues no HTTP request in that branch). -/
def getLatestVotes (base_url : String) (networkResponse : List Vote) : List Vote :=
  if isOffline base_url then generateTemporalVotes else networkResponse

/-! ## validator/vote_fetcher.py and storage/models.py (vote side) -/

/-- Embedding of the VoteSnapshot ORM model of storage/models.py.  Its
columns are id, block_height, voter_hotkey, weights and ts; there is no
voter_stake column.  The surrogate id and the defaulted timestamp ts
carry no pipeline logic and are omitted. -/
structure VoteSnapshot where
  voter_hotkey : String
  block_height : ℤ
  weights : Dict ℤ ℚ
deriving DecidableEq, Repr

/-- Natural key used by StateCache.votes_changed. -/
def VoteSnapshot.key (s : VoteSnapshot) : String × ℤ :=
  (s.voter_hotkey, s.block_height)

/-- Vote-snapshot table of the store, reduced to the natural keys that
StateCache.votes_changed queries: (voter_hotkey, block_height) pairs. -/
abbrev VoteStore := List (String × ℤ)

/-- Embedding of StateCache.votes_changed: true iff no row with this
(voter_hotkey, block_height) pair exists. -/
def votes_changed (store : VoteStore) (new_block_height : ℤ) (voter_hotkey : String) : Bool :=
  decide ((voter_hotkey, new_block_height) ∉ store)

/-- Embedding of VoteFetcher._flatten_vote for schema Votes: a non-empty
weights dict yields its items; an empty one falls through the legacy
attribute probe (absent on the pydantic model) to the empty list. -/
def flatten_vote (v : Vote) : List (ℤ × ℚ) :=
  if v.weights.isEmpty then [] else v.weights

/-- Raw subnet-weight aggregation loop of VoteFetcher.fetch_and_store:
raw_weights[int(sid)] += float(w) for every vote and every flattened
(sid, w) pair.  Note there is no multiplication by voter_stake. -/
def aggregate_raw (votes : List Vote) : Dict ℤ ℚ :=
  votes.foldl (fun d v => (flatten_vote v).foldl (fun d2 p => dictAdd d2 p.1 p.2) d) []

/-- Result of one VoteFetcher.fetch_and_store call: the returned
normalised weights (also written to cache.subnet_weights), the list of
newly persisted snapshots (also written to cache.latest_votes), and the
vote store after the bulk insert. -/
structure VoteFetchResult where
  weights : Dict ℤ ℚ
  persisted : List VoteSnapshot
  store : VoteStore
deriving Repr

/-- Embedding of VoteFetcher.fetch_and_store, with the votes returned by
the API client passed in explicitly. -/
def vote_fetch_and_store (store : VoteStore) (votes : List Vote) : VoteFetchResult :=
  if votes.isEmpty then
    { weights := [], persisted := [], store := store }
  else
    let raw_weights := aggregate_raw votes
    let total_raw := dictSum raw_weights
    let weights :=
      if total_raw > 0 then dictMapVal (fun w => w / total_raw) raw_weights else []
    let snapshots :=
      (votes.filter (fun v => votes_changed store v.block_height v.voter_hotkey)).map
        (fun v =>
          { voter_hotkey := v.voter_hotkey
            block_height := v.block_height
            weights := v.weights : VoteSnapshot })
    { weights := weights
      persisted := snapshots
      store := store ++ snapshots.map VoteSnapshot.key }

/-! ## validator/rewards.py -/

/-- Duck-typed view of one element of cache.latest_votes as read by
RewardCalculator._build_master_vector.  The code accesses the element
only through getattr(vs, "voter_stake", 0.0) and getattr(vs,
"weights", {}); voter_stake is optional because the persisted
VoteSnapshot ORM rows have no such attribute. -/
structure VoteLike where
  voter_stake : Option ℚ
  weights : Dict ℤ ℚ
deriving DecidableEq, Repr

/-- Reading float(getattr(vs, "voter_stake", 0.0)). -/
def VoteLike.stake (v : VoteLike) : ℚ :=
  v.voter_stake.getD 0

/-- View of a persisted VoteSnapshot as the RewardCalculator sees it:
the ORM model has no voter_stake column, so the attribute is absent. -/
def VoteSnapshot.toVoteLike (s : VoteSnapshot) : VoteLike :=
  { voter_stake := none, weights := s.weights }

/-- Loop body of RewardCalculator._build_master_vector: accumulate
raw[int(sid)] += stake * (float(w) / s) over one vote and add its stake
to total_stake, skipping zero-stake, empty-weights and zero-sum
votes. -/
def masterStep (acc : Dict ℤ ℚ × ℚ) (vs : VoteLike) : Dict ℤ ℚ × ℚ :=
  let stake := vs.stake
  if stake ≤ 0 ∨ vs.weights.isEmpty then acc
  else
    let s := dictSum vs.weights
    if s ≤ 0 then acc
    else
      (vs.weights.foldl (fun d p => dictAdd d p.1 (stake * (p.2 / s))) acc.1,
       acc.2 + stake)

/-- Embedding of RewardCalculator._build_master_vector: with no fresh
votes fall back to cache.subnet_weights, else build the stake-weighted
master vector, returning empty when the total stake is not positive. -/
def build_master_vector (latest_votes : List VoteLike) (subnet_weights : Dict ℤ ℚ) :
    Dict ℤ ℚ :=
  if latest_votes.isEmpty then subnet_weights
  else
    let rt := latest_votes.foldl masterStep ([], 0)
    if rt.2 ≤ 0 then [] else dictMapVal (fun w => w / rt.2) rt.1

/-- Reward-accumulation loop of RewardCalculator.compute (step 3): for
every subnet with positive master weight and positive total liquidity,
rewards[uid] += lp_amt * (1 / total_lp) * w_sub for each positive
contribution.  Inner liquidity keys are integer uids in cache.liquidity
as published by the LiquidityFetcher, so the int(key) coercion always
succeeds. -/
def accumulate_rewards (master : Dict ℤ ℚ) (liquidity : Dict ℤ (Dict ℤ ℚ)) :
    Dict ℤ ℚ :=
  master.foldl
    (fun rewards p =>
      if p.2 ≤ 0 then rewards
      else
        let lp_by_key := (dictGet liquidity p.1).getD []
        let total_lp := dictSum lp_by_key
        if total_lp ≤ 0 then rewards
        else
          lp_by_key.foldl
            (fun r q =>
              let contrib := q.2 * (1 / total_lp) * p.2
              if contrib > 0 then dictAdd r q.1 contrib else r)
            rewards)
    []

/-- Embedding of RewardCalculator.compute: empty on an empty metagraph,
else normalise the accumulated rewards when their total is positive and
fall back to the uniform distribution over metagraph.uids otherwise. -/
def compute (uids : List ℤ) (latest_votes : List VoteLike)
    (subnet_weights : Dict ℤ ℚ) (liquidity : Dict ℤ (Dict ℤ ℚ)) : Dict ℤ ℚ :=
  if uids.isEmpty then []
  else
    let master_w := build_master_vector latest_votes subnet_weights
    let rewards := accumulate_rewards master_w liquidity
    let total_reward := dictSum rewards
    if total_reward > 0 then
      dictMapVal (fun r => r * (1 / total_reward)) rewards
    else
      uids.foldl (fun d u => dictSet d u (1 / (uids.length : ℚ))) []

/-! ## validator/liquidity_fetcher.py, utils/liquidity_utils.py and the
keyword-argument surface of the Python constructors involved -/

/-- Python keyword-argument acceptance check: calling a function with a
keyword not among its accepted parameter names raises TypeError, here
modelled as an error carrying the offending name. -/
def pythonKwargCheck (accepted : List String) (passed : List String) :
    Except String Unit :=
  match passed.find? (fun k => ¬ accepted.contains k) with
  | some k => Except.error k
  | none => Except.ok ()

/-- Column names of the LiquiditySnapshot ORM model in storage/models.py,
which are exactly the keyword arguments its declarative constructor
accepts. -/
def liquiditySnapshotColumns : List String :=
  ["id", "wallet_hotkey", "subnet_id", "usd_value", "block_height", "ts"]

/-- Keyword arguments that LiquidityFetcher.fetch_and_store passes when
constructing a LiquiditySnapshot (liquidity_fetcher.py, step 4). -/
def liquidityFetcherSnapshotKwargs : List String :=
  ["wallet_hotkey", "subnet_id", "tao_value", "block_height"]

/-- Parameter names of LiquidityFetcher.__init__ besides self and the
positional cache: the single keyword-only parameter fetch_fn. -/
def liquidityFetcherInitKwargs : List String :=
  ["fetch_fn"]

/-- Keyword arguments EpochValidatorNeuron.__init__ passes to
LiquidityFetcher (neurons/neuron_validator.py line 86). -/
def neuronLiquidityFetcherCallKwargs : List String :=
  ["primary_netuid"]

/-- Embedding of _discover_subnets in utils/liquidity_utils.py for the
primary branch: sorted(int(x) for x in await st.get_subnets()). -/
def discover_subnets (chainSubnets : List ℤ) : List ℤ :=
  chainSubnets.insertionSort (· ≤ ·)

/-- Target-subnet selection of fetch_subnet_liquidity_positions in
utils/liquidity_utils.py: a given netuid is queried alone, otherwise all
discovered subnets are queried in ascending order. -/
def liqTargets (netuid : Option ℤ) (discovered : List ℤ) : List ℤ :=
  match netuid with
  | some u => [u]
  | none => discover_subnets discovered

/-- Subnets actually queried by a LiquidityFetcher.fetch_and_store call:
the netuid == 0 guard returns early with no query, any other request is
forwarded to fetch_subnet_liquidity_positions. -/
def liqFetchRequested (netuid : Option ℤ) (discovered : List ℤ) : List ℤ :=
  if netuid = some 0 then [] else liqTargets netuid discovered

/-! ## neurons/neuron_validator.py (epoch scheduler) -/

/-- Embedding of EpochValidatorNeuron._discover_epoch_length.  tempoRpc
is the value of self.subtensor.tempo(netuid) (None modelling a falsy
return, mapped to 360 by the Python or-expression, as is a literal 0);
probe is None when the head/next-head RPC raises, and carries
(current_block, next_epoch_start) otherwise, the second component None
when the RPC returns None (which the code turns into a caught
ValueError). -/
def discover_epoch_length (tempoRpc : Option ℤ) (probe : Option (ℤ × Option ℤ)) : ℤ :=
  let tempo := match tempoRpc with
    | none => 360
    | some t => if t = 0 then 360 else t
  match probe with
  | none => tempo + 1
  | some (_, none) => tempo + 1
  | some (head, some next_head) =>
      let derived := next_head - (head - head % tempo)
      if derived = tempo ∨ derived = tempo + 1 then derived else tempo + 1

/-- Embedding of self._epoch_len or self._discover_epoch_length() as in
_epoch_snapshot and _wait_for_next_head (a stored falsy 0 also triggers
the probe, per the Python or-expression). -/
def epoch_len_or_discover (stored : Option ℤ) (tempoRpc : Option ℤ)
    (probe : Option (ℤ × Option ℤ)) : ℤ :=
  match stored with
  | none => discover_epoch_length tempoRpc probe
  | some l => if l = 0 then discover_epoch_length tempoRpc probe else l

/-- Epoch-head step of EpochValidatorNeuron.run: the stored length is
discarded (self._epoch_len = None) and _epoch_snapshot then derives the
length anew. -/
def epoch_head_length (_stored : Option ℤ) (tempoRpc : Option ℤ)
    (probe : Option (ℤ × Option ℤ)) : ℤ :=
  epoch_len_or_discover none tempoRpc probe

/-! ## Helper lemmas about the embedded pipeline -/

/-- Mass a single vote assigns to subnet s: the sum of the weights of
its pairs whose subnet id equals s. -/
def subnetMass (v : Vote) (s : ℤ) : ℚ :=
  ((v.weights.filter (fun p => p.1 = s)).map Prod.snd).sum

/-- Total raw mass a vote list assigns to subnet s, summing plain
weights with no stake factor (matching the aggregation the code runs). -/
def totalSubnetMass (votes : List Vote) (s : ℤ) : ℚ :=
  (votes.map (fun v => subnetMass v s)).sum

theorem flatten_vote_eq_weights (v : Vote) : flatten_vote v = v.weights := by
  by_cases h : v.weights.isEmpty
  · have : v.weights = [] := by
      cases hw : v.weights with
      | nil => rfl
      | cons a l => rw [hw] at h; simp [List.isEmpty] at h
    simp [flatten_vote, h, this]
  · simp [flatten_vote, h]

theorem dictGetD_foldl_addPairs (ps : List (ℤ × ℚ)) :
    ∀ (d : Dict ℤ ℚ) (s : ℤ),
      dictGetD (ps.foldl (fun d2 p => dictAdd d2 p.1 p.2) d) s =
        dictGetD d s + ((ps.filter (fun p => p.1 = s)).map Prod.snd).sum := by
  induction ps with
  | nil => intro d s; simp
  | cons p rest ih =>
      intro d s
      obtain ⟨a, b⟩ := p
      by_cases h : a = s
      · subst h
        simp [List.foldl_cons, ih, dictGetD_dictAdd]
        ring
      · simp [List.foldl_cons, ih, dictGetD_dictAdd, h]

theorem dictGetD_aggregate_raw (votes : List Vote) (s : ℤ) :
    dictGetD (aggregate_raw votes) s = totalSubnetMass votes s := by
  suffices hgen : ∀ (d : Dict ℤ ℚ),
      dictGetD (votes.foldl
        (fun d v => (flatten_vote v).foldl (fun d2 p => dictAdd d2 p.1 p.2) d) d) s =
        dictGetD d s + totalSubnetMass votes s by
    have := hgen []
    simpa [aggregate_raw, dictGetD, dictGet] using this
  induction votes with
  | nil => intro d; simp [totalSubnetMass]
  | cons v rest ih =>
      intro d
      simp only [List.foldl_cons]
      rw [ih, flatten_vote_eq_weights, dictGetD_foldl_addPairs]
      simp [totalSubnetMass, subnetMass]
      ring

theorem masterStep_of_stake_nonpos (acc : Dict ℤ ℚ × ℚ) (vs : VoteLike)
    (h : vs.stake ≤ 0) : masterStep acc vs = acc := by
  simp [masterStep, h]

theorem foldl_masterStep_of_stake_nonpos (lv : List VoteLike)
    (h : ∀ v ∈ lv, v.stake ≤ 0) (init : Dict ℤ ℚ × ℚ) :
    lv.foldl masterStep init = init := by
  induction lv with
  | nil => rfl
  | cons v rest ih =>
      have hv : v.stake ≤ 0 := h v (by simp)
      have hstep : masterStep init v = init := by simp [masterStep, hv]
      simp only [List.foldl_cons, hstep]
      exact ih (fun w hw => h w (by simp [hw]))

theorem dictGet_foldl_setConst (c : ℚ) (l : List ℤ) :
    ∀ (d : Dict ℤ ℚ) (u : ℤ), (u ∈ l ∨ dictGet d u = some c) →
      dictGet (l.foldl (fun d2 x => dictSet d2 x c) d) u = some c := by
  induction l with
  | nil =>
      intro d u h
      rcases h with h | h
      · simp at h
      · simpa using h
  | cons x rest ih =>
      intro d u h
      simp only [List.foldl_cons]
      apply ih
      rcases h with h | h
      · rcases List.mem_cons.mp h with h | h
        · right
          subst h
          simp [dictGet_dictSet]
        · left; exact h
      · right
        by_cases hx : x = u
        · subst hx; simp [dictGet_dictSet]
        · simp [dictGet_dictSet, hx, h]

/-! ## Claim C1 -/

/-- Concrete vote with zero stake and a positive weight on subnet 1. -/
def zeroStakeVote : Vote :=
  { voter_hotkey := "5ZeroStakeVoterHotkey000000000000000000000000001"
    block_height := 5
    voter_stake := 0
    weights := [(1, 1)] }

theorem aggregate_raw_zeroStakeVote :
    aggregate_raw [zeroStakeVote] = [(1, 1)] := by
  norm_num [aggregate_raw, flatten_vote, zeroStakeVote, dictAdd]

/-- C1 counterexample: fetch_and_store aggregates raw[s] += w without
any voter_stake factor, so a vote with voter_stake = 0 and weight 1 on
subnet 1 contributes 1 (not 0) to raw[1], and the published
subnet_weights give subnet 1 the full mass. -/
theorem C1_counterexample :
    zeroStakeVote.voter_stake = 0 ∧
    dictGetD (aggregate_raw [zeroStakeVote]) 1 = 1 ∧
    dictGet (vote_fetch_and_store [] [zeroStakeVote]).weights 1 = some 1 := by
  refine ⟨rfl, ?_, ?_⟩
  · norm_num [aggregate_raw_zeroStakeVote, dictGetD, dictGet]
  · norm_num [vote_fetch_and_store, aggregate_raw_zeroStakeVote,
      dictSum, dictMapVal, dictGet, votes_changed]

/-- C1 amended: fetch_and_store aggregates the raw subnet mass as
raw[s] += w for each vote and each pair (s, w) in its weights, ignoring
voter_stake entirely (so a zero-stake vote contributes its raw weight),
and the published subnet_weights equal raw[s] / Σ raw when Σ raw > 0. -/
theorem C1_raw_aggregation (store : VoteStore) (votes : List Vote) (s : ℤ) :
    dictGetD (aggregate_raw votes) s = totalSubnetMass votes s ∧
    (0 < dictSum (aggregate_raw votes) →
      dictGetD (vote_fetch_and_store store votes).weights s =
        dictGetD (aggregate_raw votes) s / dictSum (aggregate_raw votes)) := by
  refine ⟨dictGetD_aggregate_raw votes s, ?_⟩
  intro hpos
  have hne : votes.isEmpty = false := by
    cases votes with
    | nil => simp [aggregate_raw, dictSum] at hpos
    | cons v rest => rfl
  simp only [vote_fetch_and_store, hne, Bool.false_eq_true, if_false, hpos, if_true]
  rw [dictGetD, dictGetD, dictGet_dictMapVal]
  cases hg : dictGet (aggregate_raw votes) s with
  | none => simp
  | some w => simp

/-- C1 witness: instantiation of the amended aggregation theorem on one
vote with weight 1 on subnet 1 over an empty store. -/
theorem C1_raw_aggregation_witness :
    (dictGetD (aggregate_raw [zeroStakeVote]) 1 = totalSubnetMass [zeroStakeVote] 1 ∧
      (0 < dictSum (aggregate_raw [zeroStakeVote]) →
        dictGetD (vote_fetch_and_store [] [zeroStakeVote]).weights 1 =
          dictGetD (aggregate_raw [zeroStakeVote]) 1 /
            dictSum (aggregate_raw [zeroStakeVote]))) ∧
    0 < dictSum (aggregate_raw [zeroStakeVote]) :=
  ⟨C1_raw_aggregation [] [zeroStakeVote] 1,
   by norm_num [aggregate_raw_zeroStakeVote, dictSum]⟩

/-! ## Claim C5 -/

/-- C5: on metagraph uids [0,1,2], cached subnet_weights
{10: 1/2, 11: 1/2}, no fresh votes and the given liquidity map,
RewardCalculator.compute returns exactly {0: 1/4, 1: 1/4, 2: 1/2}. -/
theorem C5_reward_round_trip :
    dictGet (compute [0, 1, 2] []
      [(10, 1/2), (11, 1/2)]
      [(10, [(0, 100), (1, 0), (2, 100)]), (11, [(0, 0), (1, 50), (2, 50)])]) 0 =
        some (1/4) ∧
    dictGet (compute [0, 1, 2] []
      [(10, 1/2), (11, 1/2)]
      [(10, [(0, 100), (1, 0), (2, 100)]), (11, [(0, 0), (1, 50), (2, 50)])]) 1 =
        some (1/4) ∧
    dictGet (compute [0, 1, 2] []
      [(10, 1/2), (11, 1/2)]
      [(10, [(0, 100), (1, 0), (2, 100)]), (11, [(0, 0), (1, 50), (2, 50)])]) 2 =
        some (1/2) ∧
    (compute [0, 1, 2] []
      [(10, 1/2), (11, 1/2)]
      [(10, [(0, 100), (1, 0), (2, 100)]), (11, [(0, 0), (1, 50), (2, 50)])]).length = 3 ∧
    dictSum (compute [0, 1, 2] []
      [(10, 1/2), (11, 1/2)]
      [(10, [(0, 100), (1, 0), (2, 100)]), (11, [(0, 0), (1, 50), (2, 50)])]) = 1 := by
  norm_num [compute, build_master_vector, accumulate_rewards, dictGet, dictGetD,
    dictSum, dictMapVal, dictAdd, dictSet]

/-! ## Claim C7 -/

theorem ACTIVE_SUBNETS_eq :
    ACTIVE_SUBNETS = [10, 27, 36, 51, 73, 85, 87, 97, 102, 104, 106] := by
  decide

theorem SUBNET_WEIGHT_close_to_inv_len :
    |SUBNET_WEIGHT - 1 / (ACTIVE_SUBNETS.length : ℚ)| ≤ 1 / 1000000000000 := by
  rw [ACTIVE_SUBNETS_eq, SUBNET_WEIGHT]
  rw [abs_le]
  norm_num

theorem TEMPORAL_WEIGHTS_sum : dictSum TEMPORAL_WEIGHTS = 11 * SUBNET_WEIGHT := by
  simp [TEMPORAL_WEIGHTS, ACTIVE_SUBNETS_eq, dictSum]
  ring

/-- C7 counterexample: subnet 104 belongs to the inactive-subnet list of
api/client.py and nevertheless appears among the weight keys of every
temporal vote (it also belongs to ENABLED_USER_LIQUIDITY, hence to
ACTIVE_SUBNETS). -/
theorem C7_counterexample :
    (104 : ℤ) ∈ INACTIVE_SUBNETS ∧ (104 : ℤ) ∈ ACTIVE_SUBNETS ∧
    generateTemporalVotes.map (fun v => dictGet v.weights 104) =
      [some SUBNET_WEIGHT, some SUBNET_WEIGHT, some SUBNET_WEIGHT,
       some SUBNET_WEIGHT] := by
  refine ⟨by decide, by decide, ?_⟩
  simp [generateTemporalVotes, TEMPORAL_VOTER_HOTKEYS, TEMPORAL_WEIGHTS,
    ACTIVE_SUBNETS_eq, dictGet]

/-- C7 amended: with base URL equal to the sentinel TODO the client
returns the four deterministic temporal votes without consulting the
network; each has block height 6073385 and stake 1, its weight keys are
exactly ACTIVE_SUBNETS (which includes subnet 104, a member of the
inactive list), each active subnet gets exactly the float
1/|ACTIVE_SUBNETS| (the double SUBNET_WEIGHT, within 1e-12 of the ideal
1/11), and the weights sum to 1 within 1e-12. -/
theorem C7_offline_votes (networkResponse : List Vote) :
    getLatestVotes "TODO" networkResponse = generateTemporalVotes ∧
    generateTemporalVotes.length = 4 ∧
    |SUBNET_WEIGHT - 1 / (ACTIVE_SUBNETS.length : ℚ)| ≤ 1 / 1000000000000 ∧
    (∀ v ∈ generateTemporalVotes,
      v.block_height = 6073385 ∧ v.voter_stake = 1 ∧
      v.weights.map Prod.fst = ACTIVE_SUBNETS ∧
      |dictSum v.weights - 1| ≤ 1 / 1000000000000 ∧
      ∀ s ∈ ACTIVE_SUBNETS, dictGet v.weights s = some SUBNET_WEIGHT) := by
  refine ⟨?_, by decide, SUBNET_WEIGHT_close_to_inv_len, ?_⟩
  · have hoff : isOffline "TODO" = true := by decide
    simp [getLatestVotes, hoff]
  · intro v hv
    have hw : v.weights = TEMPORAL_WEIGHTS := by
      simp [generateTemporalVotes, TEMPORAL_VOTER_HOTKEYS] at hv
      rcases hv with h | h | h | h <;> rw [h]
    have hb : v.block_height = 6073385 := by
      simp [generateTemporalVotes, TEMPORAL_VOTER_HOTKEYS] at hv
      rcases hv with h | h | h | h <;> rw [h] <;> rfl
    have hs : v.voter_stake = 1 := by
      simp [generateTemporalVotes, TEMPORAL_VOTER_HOTKEYS] at hv
      rcases hv with h | h | h | h <;> rw [h] <;> rfl
    refine ⟨hb, hs, ?_, ?_, ?_⟩
    · rw [hw, ACTIVE_SUBNETS_eq]
      simp [TEMPORAL_WEIGHTS, ACTIVE_SUBNETS_eq]
    · rw [hw, TEMPORAL_WEIGHTS_sum, SUBNET_WEIGHT, abs_le]
      norm_num
    · intro s hsub
      rw [hw, ACTIVE_SUBNETS_eq] at *
      fin_cases hsub <;>
        simp [TEMPORAL_WEIGHTS, ACTIVE_SUBNETS_eq, dictGet]

/-- C7 witness: the offline theorem applied to the empty network
response. -/
theorem C7_offline_votes_witness :
    getLatestVotes "TODO" [] = generateTemporalVotes ∧
    generateTemporalVotes.length = 4 :=
  ⟨(C7_offline_votes []).1, (C7_offline_votes []).2.1⟩

/-! ## Claim C2 -/

/-- C2: constructing the LiquiditySnapshot exactly as
LiquidityFetcher.fetch_and_store does, with keyword tao_value, raises
TypeError because the ORM model of storage/models.py declares the column
usd_value instead; the persistence step therefore cannot succeed. -/
theorem C2_tao_value_type_error :
    pythonKwargCheck liquiditySnapshotColumns liquidityFetcherSnapshotKwargs =
      Except.error "tao_value" := by
  rfl

/-! ## Claim C3 -/

/-- C3: EpochValidatorNeuron.__init__ calls LiquidityFetcher with the
keyword argument primary_netuid, which LiquidityFetcher.__init__ does
not accept (its only keyword parameter is fetch_fn), so the Init state
raises TypeError instead of constructing the pipeline components. -/
theorem C3_primary_netuid_type_error :
    pythonKwargCheck liquidityFetcherInitKwargs neuronLiquidityFetcherCallKwargs =
      Except.error "primary_netuid" := by
  rfl

/-! ## Claim C4 -/

/-- C4: persisted VoteSnapshot rows carry no voter_stake attribute, so
the RewardCalculator reads stake 0 for each of them; with a non-empty
latest_votes list of such rows the master vector is empty and compute
returns the uniform distribution over a non-empty metagraph. -/
theorem C4_persisted_votes_uniform (snaps : List VoteSnapshot) (uids : List ℤ)
    (sw : Dict ℤ ℚ) (liq : Dict ℤ (Dict ℤ ℚ))
    (h1 : snaps ≠ []) (h2 : uids ≠ []) :
    build_master_vector (snaps.map VoteSnapshot.toVoteLike) sw = [] ∧
    ∀ u ∈ uids,
      dictGet (compute uids (snaps.map VoteSnapshot.toVoteLike) sw liq) u =
        some (1 / (uids.length : ℚ)) := by
  have hz : ∀ v ∈ snaps.map VoteSnapshot.toVoteLike, v.stake ≤ 0 := by
    intro v hv
    rcases List.mem_map.mp hv with ⟨s, _, rfl⟩
    simp [VoteSnapshot.toVoteLike, VoteLike.stake]
  have hne : (snaps.map VoteSnapshot.toVoteLike).isEmpty = false := by
    cases snaps with
    | nil => exact absurd rfl h1
    | cons a l => rfl
  have hmaster : build_master_vector (snaps.map VoteSnapshot.toVoteLike) sw = [] := by
    simp [build_master_vector, hne, foldl_masterStep_of_stake_nonpos _ hz]
  refine ⟨hmaster, ?_⟩
  intro u hu
  have huids : uids.isEmpty = false := by
    cases uids with
    | nil => exact absurd rfl h2
    | cons a l => rfl
  have hacc : accumulate_rewards (build_master_vector
      (snaps.map VoteSnapshot.toVoteLike) sw) liq = [] := by
    rw [hmaster]; rfl
  simp only [compute, huids, Bool.false_eq_true, if_false, hacc]
  have hnotpos : ¬ (dictSum ([] : Dict ℤ ℚ) > 0) := by simp [dictSum]
  rw [if_neg hnotpos]
  exact dictGet_foldl_setConst _ _ _ _ (Or.inl hu)

/-- C4 witness: a single persisted snapshot and a one-miner metagraph. -/
theorem C4_persisted_votes_uniform_witness :
    (([({ voter_hotkey := "5SampleVoterHotkeyData0000000000000000000000001",
          block_height := 9, weights := [(10, 1)] } : VoteSnapshot)] :
            List VoteSnapshot) ≠ [] ∧ ([7] : List ℤ) ≠ []) ∧
    dictGet (compute [7]
      ([({ voter_hotkey := "5SampleVoterHotkeyData0000000000000000000000001",
           block_height := 9, weights := [(10, 1)] } : VoteSnapshot)].map
          VoteSnapshot.toVoteLike) [] []) 7 = some (1 / (([7] : List ℤ).length : ℚ)) :=
  ⟨⟨by decide, by decide⟩,
   (C4_persisted_votes_uniform
      [{ voter_hotkey := "5SampleVoterHotkeyData0000000000000000000000001",
         block_height := 9, weights := [(10, 1)] }] [7] [] []
      (by decide) (by decide)).2 7 (by decide)⟩

/-! ## Claim C6 -/

/-- C6: RewardCalculator.compute returns the empty map on an empty
metagraph; on a non-empty metagraph it returns the accumulated rewards
renormalised to sum exactly 1 when the accumulated total is positive,
and the exact uniform value 1/|uids| for every uid otherwise. -/
theorem C6_normalise_or_uniform (uids : List ℤ) (lv : List VoteLike)
    (sw : Dict ℤ ℚ) (liq : Dict ℤ (Dict ℤ ℚ)) :
    (uids = [] → compute uids lv sw liq = []) ∧
    (uids ≠ [] →
      0 < dictSum (accumulate_rewards (build_master_vector lv sw) liq) →
      compute uids lv sw liq =
        dictMapVal
          (fun r => r *
            (1 / dictSum (accumulate_rewards (build_master_vector lv sw) liq)))
          (accumulate_rewards (build_master_vector lv sw) liq) ∧
      dictSum (compute uids lv sw liq) = 1) ∧
    (uids ≠ [] →
      dictSum (accumulate_rewards (build_master_vector lv sw) liq) ≤ 0 →
      ∀ u ∈ uids,
        dictGet (compute uids lv sw liq) u = some (1 / (uids.length : ℚ))) := by
  refine ⟨?_, ?_, ?_⟩
  · rintro rfl
    rfl
  · intro hne hpos
    have huids : uids.isEmpty = false := by
      cases uids with
      | nil => exact absurd rfl hne
      | cons a l => rfl
    have heq : compute uids lv sw liq =
        dictMapVal
          (fun r => r *
            (1 / dictSum (accumulate_rewards (build_master_vector lv sw) liq)))
          (accumulate_rewards (build_master_vector lv sw) liq) := by
      simp only [compute, huids, Bool.false_eq_true, if_false]
      rw [if_pos hpos]
    refine ⟨heq, ?_⟩
    rw [heq, dictSum_dictMapVal_mul]
    field_simp
  · intro hne hnonpos u hu
    have huids : uids.isEmpty = false := by
      cases uids with
      | nil => exact absurd rfl hne
      | cons a l => rfl
    simp only [compute, huids, Bool.false_eq_true, if_false]
    rw [if_neg (not_lt.mpr hnonpos)]
    exact dictGet_foldl_setConst _ _ _ _ (Or.inl hu)

/-- C6 witness: empty cache state over the one-miner metagraph [4]
lands in the uniform branch. -/
theorem C6_normalise_or_uniform_witness :
    (([4] : List ℤ) ≠ [] ∧
      dictSum (accumulate_rewards (build_master_vector [] []) []) ≤ 0) ∧
    dictGet (compute [4] [] [] []) 4 = some (1 / (([4] : List ℤ).length : ℚ)) :=
  ⟨⟨by decide, by norm_num [accumulate_rewards, build_master_vector, dictSum]⟩,
   (C6_normalise_or_uniform [4] [] [] []).2.2 (by decide)
     (by norm_num [accumulate_rewards, build_master_vector, dictSum]) 4 (by decide)⟩

/-! ## Claim C8 -/

/-- C8 counterexample: subnet 1 is not in ACTIVE_SUBNETS yet a call with
subnet 1 queries exactly subnet 1 (no membership guard exists), and a
call with no subnet queries the chain-discovered subnets, not
ACTIVE_SUBNETS. -/
theorem C8_counterexample :
    (1 : ℤ) ∉ ACTIVE_SUBNETS ∧
    liqFetchRequested (some 1) [] = [1] ∧
    liqFetchRequested none [3, 1] = [1, 3] ∧
    liqFetchRequested none [3, 1] ≠ ACTIVE_SUBNETS := by
  decide

/-- C8 amended: fetch_and_store always refuses subnet 0 with an empty
result; any other explicitly given subnet is queried regardless of
ACTIVE_SUBNETS membership; and with no subnet given it queries the
subnets discovered from the chain, in ascending order. -/
theorem C8_subnet_selection (d : List ℤ) (u : ℤ) (hu : u ≠ 0) :
    liqFetchRequested (some 0) d = [] ∧
    liqFetchRequested (some u) d = [u] ∧
    liqFetchRequested none d = discover_subnets d ∧
    (discover_subnets d).Sorted (· ≤ ·) ∧
    (discover_subnets d).Perm d := by
  refine ⟨rfl, ?_, rfl, ?_, ?_⟩
  · simp [liqFetchRequested, liqTargets, hu]
  · exact List.sorted_insertionSort _ _
  · exact List.perm_insertionSort _ _

/-- C8 witness: the selection theorem applied to subnet 5 over the
discovered list [2, 1]. -/
theorem C8_subnet_selection_witness :
    ((5 : ℤ) ≠ 0) ∧
    liqFetchRequested (some 0) [2, 1] = [] ∧
    liqFetchRequested (some 5) [2, 1] = [5] ∧
    liqFetchRequested none [2, 1] = discover_subnets [2, 1] ∧
    (discover_subnets [2, 1]).Sorted (· ≤ ·) ∧
    (discover_subnets [2, 1]).Perm [2, 1] :=
  ⟨by decide, C8_subnet_selection [2, 1] 5 (by decide)⟩

/-! ## Claim C9 -/

/-- C9: the epoch-length probe computes L = n − (h − h mod t) and
returns it iff L is t or t+1, returning t+1 in every other case
(including a raising probe or a None next-head), and the epoch-head step
of the run loop discards any stored length so the next snapshot
re-probes. -/
theorem C9_epoch_length_probe (t h n : ℤ) (stored : Option ℤ)
    (probe : Option (ℤ × Option ℤ)) (ht : t ≠ 0) :
    ((n - (h - h % t) = t ∨ n - (h - h % t) = t + 1) →
      discover_epoch_length (some t) (some (h, some n)) = n - (h - h % t)) ∧
    (¬ (n - (h - h % t) = t ∨ n - (h - h % t) = t + 1) →
      discover_epoch_length (some t) (some (h, some n)) = t + 1) ∧
    discover_epoch_length (some t) none = t + 1 ∧
    discover_epoch_length (some t) (some (h, none)) = t + 1 ∧
    epoch_head_length stored (some t) probe = discover_epoch_length (some t) probe := by
  refine ⟨?_, ?_, ?_, ?_, rfl⟩
  · intro hd
    simp [discover_epoch_length, ht, hd]
  · intro hd
    simp [discover_epoch_length, ht, hd]
  · simp [discover_epoch_length, ht]
  · simp [discover_epoch_length, ht]

/-- C9 witness: tempo 360 at head 0 with next head 360 derives exactly
360 and a discarded stored length of 99 is re-probed. -/
theorem C9_epoch_length_probe_witness :
    ((360 : ℤ) ≠ 0 ∧
      ((360 : ℤ) - (0 - 0 % 360) = 360 ∨ (360 : ℤ) - (0 - 0 % 360) = 360 + 1)) ∧
    discover_epoch_length (some 360) (some (0, some 360)) = 360 - (0 - 0 % 360) :=
  ⟨⟨by decide, by decide⟩,
   (C9_epoch_length_probe 360 0 360 (some 99) none (by decide)).1 (by decide)⟩

/-! ## Claim C10 -/

/-- C10: calling fetch_and_store twice with the client returning the
same non-empty vote list: the first call persists exactly one snapshot
per vote whose (voter_hotkey, block_height) key is not yet stored, the
second call persists nothing, and both calls publish the same
subnet_weights. -/
theorem C10_fetch_twice (store : VoteStore) (votes : List Vote) (h1 : votes ≠ []) :
    (vote_fetch_and_store store votes).persisted =
      (votes.filter (fun v => votes_changed store v.block_height v.voter_hotkey)).map
        (fun v => { voter_hotkey := v.voter_hotkey, block_height := v.block_height,
                    weights := v.weights : VoteSnapshot }) ∧
    (vote_fetch_and_store (vote_fetch_and_store store votes).store votes).persisted
      = [] ∧
    (vote_fetch_and_store (vote_fetch_and_store store votes).store votes).weights
      = (vote_fetch_and_store store votes).weights := by
  have hne : votes.isEmpty = false := by
    cases votes with
    | nil => exact absurd rfl h1
    | cons a l => rfl
  refine ⟨by simp [vote_fetch_and_store, hne], ?_, ?_⟩
  · simp only [vote_fetch_and_store, hne, Bool.false_eq_true, if_false]
    rw [List.map_eq_nil_iff, List.filter_eq_nil_iff]
    intro v hv
    simp only [votes_changed, decide_eq_true_eq, Decidable.not_not]
    by_cases hmem : (v.voter_hotkey, v.block_height) ∈ store
    · exact List.mem_append.mpr (Or.inl hmem)
    · refine List.mem_append.mpr (Or.inr ?_)
      rw [List.map_map]
      refine List.mem_map.mpr ⟨v, ?_, rfl⟩
      refine List.mem_filter.mpr ⟨hv, ?_⟩
      simp [votes_changed, hmem]
  · simp [vote_fetch_and_store, hne]

/-- Concrete vote used to instantiate the idempotence theorem. -/
def sampleVote : Vote :=
  { voter_hotkey := "5SampleIdemVoterHotkey000000000000000000000001"
    block_height := 12
    voter_stake := 3
    weights := [(10, 1), (27, 1)] }

/-- C10 witness: the idempotence theorem on one vote over an empty
store. -/
theorem C10_fetch_twice_witness :
    ([sampleVote] ≠ []) ∧
    (vote_fetch_and_store (vote_fetch_and_store [] [sampleVote]).store
        [sampleVote]).persisted = [] :=
  ⟨by decide, (C10_fetch_twice [] [sampleVote] (by decide)).2.1⟩

end Oceans
